import Mathlib

/-!
Verification development for the `nano` template engine
(<tokenizer.ts>, <parser.ts>, <renderer.ts>).

The engine is embedded shallowly:
* JavaScript runtime values are modelled by `Nano.Value` (numbers as
  rationals plus an explicit NaN; JS `±Infinity` is not representable and
  the one operation that could produce it, division by zero, is mapped to
  NaN — no claim exercises non-finite arithmetic);
* the lazy regex tokenizer, the recursive-descent expression parser and
  the template parser are translated rule by rule, with explicit fuel for
  the recursions (every concrete run in this file stays far below the
  supplied fuel);
* the asynchronous renderer is modelled by a sequential monad
  `Nano.EvalM` carrying an error (`Nano.JSErr`, a JS error's `name` and
  `message`) and a log of the context-function calls performed (the
  observable side effects of evaluation).
-/

namespace Nano

/-- A JavaScript error value, reduced to the two fields the engine
inspects: `name` (e.g. `NotFound`, `TypeError`, `NanoSyntaxError`) and
`message`. `NanoError extends SyntaxError` sets `name = 'NanoSyntaxError'`
in <classes.ts>. -/
structure JSErr where
  name : String
  message : String
deriving Repr, DecidableEq

/-- Build the `NanoError` thrown by tokenizer and parser. -/
def nanoErr (msg : String) : JSErr := ⟨"NanoSyntaxError", msg⟩

/-- An exact (unnormalized) fraction.  Every value the engine builds has a
positive denominator (literals carry a power of ten, the arithmetic below
multiplies denominators); normalization happens only when printing.  The
representation is exact for the integer and finite-decimal arithmetic the
engine's templates perform (JS doubles are exact there too). -/
structure QNum where
  num : Int
  den : Nat
deriving Repr, DecidableEq

/-- Fraction equality by cross-multiplication. -/
def qEqB (a b : QNum) : Bool := a.num * (b.den : Int) == b.num * (a.den : Int)

/-- Fraction `<` by cross-multiplication (denominators positive). -/
def qLtB (a b : QNum) : Bool := decide (a.num * (b.den : Int) < b.num * (a.den : Int))

/-- Fraction `≤` by cross-multiplication (denominators positive). -/
def qLeB (a b : QNum) : Bool := decide (a.num * (b.den : Int) ≤ b.num * (a.den : Int))

/-- Fraction addition. -/
def qAdd (a b : QNum) : QNum :=
  ⟨a.num * (b.den : Int) + b.num * (a.den : Int), a.den * b.den⟩

/-- Fraction subtraction. -/
def qSub (a b : QNum) : QNum :=
  ⟨a.num * (b.den : Int) - b.num * (a.den : Int), a.den * b.den⟩

/-- Fraction multiplication. -/
def qMul (a b : QNum) : QNum := ⟨a.num * b.num, a.den * b.den⟩

/-- Fraction negation. -/
def qNeg (a : QNum) : QNum := ⟨-a.num, a.den⟩

/-- Fraction division (caller excludes a zero divisor). -/
def qDiv (a b : QNum) : QNum :=
  let n := a.num * (b.den : Int)
  ⟨if b.num < 0 then -n else n, a.den * b.num.natAbs⟩

/-- Integer fraction from an integer. -/
def qInt (n : Int) : QNum := ⟨n, 1⟩

/-- A JS number: a finite value or NaN. -/
inductive JSNum where
  | nan : JSNum
  | fin : QNum → JSNum
deriving Repr, DecidableEq

mutual

/-- The JS values the renderer manipulates.  Host functions supplied
through the data context are represented by a name resolved against the
environment's function table (`Env.funcs`); their call behaviour lives in
the environment, not in the value.  Array elements are a mutual list type
(`ValueList`) so that the conversions recursing into elements stay
structural. -/
inductive Value where
  | undef : Value
  | null : Value
  | bool : Bool → Value
  | num : JSNum → Value
  | str : String → Value
  | arr : ValueList → Value
  | obj : List (String × Value) → Value
  | func : String → Value

/-- The elements of an array value. -/
inductive ValueList where
  | nil : ValueList
  | cons : Value → ValueList → ValueList

end

/-- The elements of an array as a `List`. -/
def ValueList.toList : ValueList → List Value
  | .nil => []
  | .cons v vs => v :: vs.toList

/-- Build an array-element list from a `List`. -/
def ValueList.ofList : List Value → ValueList
  | [] => .nil
  | v :: vs => .cons v (ValueList.ofList vs)

/-- JS truthiness: `undefined`, `null`, `false`, `0`, `NaN` and `""` are
falsy, everything else truthy (a fraction is zero iff its numerator is). -/
def truthy : Value → Bool
  | .undef => false
  | .null => false
  | .bool b => b
  | .num .nan => false
  | .num (.fin q) => decide (q.num ≠ 0)
  | .str s => decide (s ≠ "")
  | .arr _ => true
  | .obj _ => true
  | .func _ => true

/-- Left-pad a digit string with zeros to length `k`. -/
def padZeros (s : String) (k : Nat) : String :=
  String.mk (List.replicate (k - s.length) '0') ++ s

/-- Fuelled Euclid (`Nat.gcd` itself does not reduce in the kernel; the
fuel `a + b + 1` always suffices). -/
def gcdF : Nat → Nat → Nat → Nat
  | 0, _, b => b
  | f + 1, a, b => if a = 0 then b else gcdF f (b % a) a

/-- `String(n)` for a finite JS number.  The fraction is first reduced;
integers print exactly as JS does; finite decimal fractions (denominator
`2^a·5^b` after reduction — the only non-integers reachable from decimal
literals via `+ - *`) print with a decimal point.  Other rationals
(reachable only through `/`, unexercised) fall back to a `num/den`
rendering, where JS would print the shortest round-trip decimal of the
nearest double. -/
def qToString (q : QNum) : String :=
  let g := gcdF (q.num.natAbs + q.den + 1) q.num.natAbs q.den
  let g := if g = 0 then 1 else g
  let n : Int := q.num / (g : Int)
  let d : Nat := q.den / g
  if d = 1 then toString n
  else
    match (List.range 31).find? (fun k => 10 ^ k % d = 0) with
    | some k =>
        let scaled : Int := n * ((10 ^ k / d : Nat) : Int)
        let a := scaled.natAbs
        let sign := if scaled < 0 then "-" else ""
        sign ++ toString (a / 10 ^ k) ++ "." ++ padZeros (toString (a % 10 ^ k)) k
    | none => toString n ++ "/" ++ toString d

/-- `String(n)` for a JS number. -/
def numToString : JSNum → String
  | .nan => "NaN"
  | .fin q => qToString q

mutual

/-- JS `ToString`.  For arrays this is `Array.prototype.toString`, i.e.
the elements joined with `,` (`null`/`undefined` elements become empty);
plain objects give `[object Object]`.  For a host function JS would return
its source text, which the model does not carry; no claim stringifies a
function. -/
def jsToString : Value → String
  | .undef => "undefined"
  | .null => "null"
  | .bool b => if b then "true" else "false"
  | .num n => numToString n
  | .str s => s
  | .arr xs => jsArrJoin xs
  | .obj _ => "[object Object]"
  | .func n => "function " ++ n

/-- `Array.prototype.toString`, i.e. `join(',')`: elements joined with
`,`, with `null`/`undefined` elements rendered empty. -/
def jsArrJoin : ValueList → String
  | .nil => ""
  | .cons .undef .nil => ""
  | .cons .null .nil => ""
  | .cons v .nil => jsToString v
  | .cons .undef rest => "," ++ jsArrJoin rest
  | .cons .null rest => "," ++ jsArrJoin rest
  | .cons v rest => jsToString v ++ "," ++ jsArrJoin rest

end

/-- See `jsArrElemM` (non-mutual alias used by `joinEmpty`). -/
def jsArrElem : Value → String
  | .undef => ""
  | .null => ""
  | v => jsToString v

/-- `Array.prototype.join('')` as used by `BlockList` to concatenate the
rendered children. -/
def joinEmpty (vs : List Value) : String :=
  (vs.map jsArrElem).foldl (· ++ ·) ""

/-- JS whitespace (ASCII part) for `Number(string)` trimming. -/
def isJsSpace (c : Char) : Bool :=
  c = ' ' || c = '\t' || c = '\n' || c = '\r' || c = '\x0b' || c = '\x0c'

/-- Digit list to `Nat`. -/
def digitsToNat (cs : List Char) : Nat :=
  cs.foldl (fun acc c => 10 * acc + (c.toNat - '0'.toNat)) 0

/-- A decimal literal `\d+(\.\d+)?` to an exact fraction. -/
def parseDecimal (cs : List Char) : QNum :=
  let ip := cs.takeWhile (·.isDigit)
  let rest := cs.drop ip.length
  match rest with
  | '.' :: fr =>
      ⟨((digitsToNat ip * 10 ^ fr.length + digitsToNat fr : Nat) : Int), 10 ^ fr.length⟩
  | _ => qInt (digitsToNat ip : Nat)

/-- `Number(string)`: trimmed empty string is `0`; an optional sign
followed by a decimal literal parses exactly; anything else is NaN
(JS additionally accepts hex/exponent forms, unexercised here). -/
def strToNumber (s : String) : JSNum :=
  let cs := (s.toList.dropWhile isJsSpace).reverse.dropWhile isJsSpace |>.reverse
  match cs with
  | [] => .fin (qInt 0)
  | _ =>
    let (neg, body) : Bool × List Char :=
      match cs with
      | '-' :: t => (true, t)
      | '+' :: t => (false, t)
      | t => (false, t)
    let ip := body.takeWhile (·.isDigit)
    if ip.isEmpty then .nan
    else
      let rest := body.drop ip.length
      match rest with
      | [] =>
          let q := qInt (digitsToNat ip : Nat)
          .fin (if neg then qNeg q else q)
      | '.' :: fr =>
          if fr.all (·.isDigit) && !fr.isEmpty then
            let q := parseDecimal (ip ++ '.' :: fr)
            .fin (if neg then qNeg q else q)
          else .nan
      | _ => .nan

/-- JS `ToNumber`. -/
def toNumber : Value → JSNum
  | .undef => .nan
  | .null => .fin (qInt 0)
  | .bool b => .fin (qInt (if b then 1 else 0))
  | .num n => n
  | .str s => strToNumber s
  | .arr xs => strToNumber (jsArrJoin xs)
  | .obj _ => .nan
  | .func _ => .nan

/-- NaN-absorbing addition. -/
def numAdd : JSNum → JSNum → JSNum
  | .fin a, .fin b => .fin (qAdd a b)
  | _, _ => .nan

/-- NaN-absorbing subtraction. -/
def numSub : JSNum → JSNum → JSNum
  | .fin a, .fin b => .fin (qSub a b)
  | _, _ => .nan

/-- NaN-absorbing multiplication. -/
def numMul : JSNum → JSNum → JSNum
  | .fin a, .fin b => .fin (qMul a b)
  | _, _ => .nan

/-- NaN-absorbing division.  JS gives `±Infinity` (or NaN for `0/0`) on a
zero divisor; infinities are outside the model so every zero-divisor case
maps to NaN.  No claim divides. -/
def numDiv : JSNum → JSNum → JSNum
  | .fin a, .fin b => if b.num = 0 then .nan else .fin (qDiv a b)
  | _, _ => .nan

/-- Numeric equality (NaN equal to nothing). -/
def numEq : JSNum → JSNum → Bool
  | .fin a, .fin b => qEqB a b
  | _, _ => false

/-- Numeric `<` (false when either side is NaN). -/
def numLt : JSNum → JSNum → Bool
  | .fin a, .fin b => qLtB a b
  | _, _ => false

/-- Numeric `<=` (false when either side is NaN). -/
def numLe : JSNum → JSNum → Bool
  | .fin a, .fin b => qLeB a b
  | _, _ => false

/-- Is the value object-like (object, array, function) for coercion
purposes? -/
def isObjLike : Value → Bool
  | .arr _ => true
  | .obj _ => true
  | .func _ => true
  | _ => false

/-- JS `ToPrimitive` (default/number hint) restricted to this model:
arrays, objects and functions convert via their string form, primitives
are unchanged. -/
def toPrim (v : Value) : Value :=
  if isObjLike v then .str (jsToString v) else v

/-- Loose equality on primitives after booleans have been lowered to
numbers. -/
def looseEqCore : Value → Value → Bool
  | .undef, .undef => true
  | .undef, .null => true
  | .null, .undef => true
  | .null, .null => true
  | .num a, .num b => numEq a b
  | .str a, .str b => a == b
  | .num a, .str s => numEq a (strToNumber s)
  | .str s, .num b => numEq (strToNumber s) b
  | _, _ => false

/-- Lower a boolean operand to its number, as the first step of loose
equality. -/
def lowerBool (v : Value) : Value :=
  match v with
  | .bool b => .num (.fin (qInt (if b then 1 else 0)))
  | v => v

/-- JS loose equality `==` on this value model.  Two object-like values
compare by reference in JS; the model carries no identities and returns
`false` there (no claim compares two objects). -/
def jsEquals (a b : Value) : Bool :=
  if isObjLike a && isObjLike b then false
  else looseEqCore (toPrim (lowerBool a)) (toPrim (lowerBool b))

/-- JS relational comparison: both primitives strings → lexicographic,
otherwise numeric (NaN makes every comparison false). -/
def jsLess (a b : Value) : Bool :=
  match toPrim a, toPrim b with
  | .str x, .str y => decide (x < y)
  | x, y => numLt (toNumber x) (toNumber y)

/-- JS `<=`: string pair lexicographic, otherwise numeric. -/
def jsLessEq (a b : Value) : Bool :=
  match toPrim a, toPrim b with
  | .str x, .str y => decide (x ≤ y)
  | x, y => numLe (toNumber x) (toNumber y)

/-- JS `+`: if either primitive is a string, concatenate; otherwise
numeric addition. -/
def jsAdd (a b : Value) : Value :=
  match toPrim a, toPrim b with
  | .str x, y => .str (x ++ jsToString y)
  | x, .str y => .str (jsToString x ++ y)
  | x, y => .num (numAdd (toNumber x) (toNumber y))

/-- JS `&&` on values: the left operand if falsy, else the right. -/
def valueAnd (l r : Value) : Value := if truthy l then r else l

/-- JS `||` on values: the left operand if truthy, else the right. -/
def valueOr (l r : Value) : Value := if truthy l then l else r

/-! ## Tokenizer (<tokenizer.ts>)

A token spec is an ordered list of rules; each rule is a function (the
translation of the rule's anchored regex) returning the length of the
match at the head of the input, paired with the token type (`none` is the
discard type of whitespace/comment rules). -/

/-- A produced token (`{type, value}`). -/
structure Token where
  type : String
  value : String
deriving Repr, DecidableEq

/-- Tokenizer state: remaining input after the lookahead token, current
line, the one-token lookahead, and the slice the source keeps in `input`
(the remaining input as of the entry to the last non-trivial
`traverse_next_token`, used only in the `Unknown tag` message). -/
structure TokState where
  rest : List Char
  line : Nat
  lookahead : Option Token
  inputView : List Char
deriving Repr, DecidableEq

/-- One token rule: matcher and type (`none` = match-and-discard). -/
abbrev TokenRule := (List Char → Option Nat) × Option String

/-- The characters `{` and `}` (named to keep them out of literals). -/
def braceOpen : Char := Char.ofNat 123

/-- See `braceOpen`. -/
def braceClose : Char := Char.ofNat 125

/-- The apostrophe and backtick characters. -/
def squote : Char := Char.ofNat 39

/-- See `squote`. -/
def btick : Char := Char.ofNat 96

/-- Does `lit` occur at the head of `cs`? -/
def litStarts : List Char → List Char → Bool
  | [], _ => true
  | _ :: _, [] => false
  | l :: ls, c :: cs => l = c && litStarts ls cs

/-- Matcher for a literal. -/
def litM (lit : String) : List Char → Option Nat := fun cs =>
  if litStarts lit.toList cs then some lit.toList.length else none

/-- Matcher for a literal given as characters. -/
def litListM (lit : List Char) : List Char → Option Nat := fun cs =>
  if litStarts lit cs then some lit.length else none

/-- Matcher for a single character out of a set (`[+\-]` etc.). -/
def charSetM (set : List Char) : List Char → Option Nat := fun cs =>
  match cs with
  | c :: _ => if set.contains c then some 1 else none
  | [] => none

/-- JS `\w` (for the `\b` boundaries of the keyword rules). -/
def isWordChar (c : Char) : Bool := c.isAlphanum || c = '_'

/-- Matcher for `\bkw\b` at the head of the input (the left boundary
always holds at position 0). -/
def kwM (kw : String) : List Char → Option Nat := fun cs =>
  if litStarts kw.toList cs then
    match cs.drop kw.toList.length with
    | [] => some kw.toList.length
    | c :: _ => if isWordChar c then none else some kw.toList.length
  else none

/-- Matcher for `\s+` (ASCII whitespace; the engine's templates use no
exotic Unicode spaces). -/
def wsMatch : List Char → Option Nat := fun cs =>
  let n := (cs.takeWhile isJsSpace).length
  if n = 0 then none else some n

/-- Index of the first occurrence of `pat` in `cs`. -/
def findSub (pat : List Char) : List Char → Option Nat
  | [] => if pat.isEmpty then some 0 else none
  | c :: rest =>
      if litStarts pat (c :: rest) then some 0
      else (findSub pat rest).map (· + 1)

/-- Matcher for `<!--[\s\S]*?-->`. -/
def commentMatch : List Char → Option Nat := fun cs =>
  if litStarts ("<!--".toList) cs then
    match findSub ("-->".toList) (cs.drop 4) with
    | some i => some (4 + i + 3)
    | none => none
  else none

/-- Characters matched by `.`: anything but a line terminator (the two
Unicode separators JS also excludes cannot occur in these templates). -/
def noNl (c : Char) : Bool := c ≠ '\n' && c ≠ '\r'

/-- Largest index of a `}` that is preceded only by `.`-matchable
characters — the end of a greedy `.*}` / `.+}` tail. -/
def lastBraceAux : List Char → Nat → Option Nat → Option Nat
  | [], _, best => best
  | c :: rest, i, best =>
      lastBraceAux rest (i + 1) (if c = braceClose then some i else best)

/-- See `lastBraceAux`. -/
def lastBraceIdx (cs : List Char) : Option Nat :=
  lastBraceAux (cs.takeWhile noNl) 0 none

/-- Smallest index of a `}` preceded only by `.`-matchable characters —
the end of a lazy `.*?}` tail. -/
def firstBraceIdx : List Char → Option Nat
  | [] => none
  | c :: rest =>
      if c = braceClose then some 0
      else if noNl c then (firstBraceIdx rest).map (· + 1)
      else none

/-- Matcher for `\d+(\.\d+)?`. -/
def numMatch : List Char → Option Nat := fun cs =>
  let ip := cs.takeWhile (·.isDigit)
  if ip.isEmpty then none
  else
    match cs.drop ip.length with
    | '.' :: rest =>
        let fr := rest.takeWhile (·.isDigit)
        if fr.isEmpty then some ip.length else some (ip.length + 1 + fr.length)
    | _ => some ip.length

/-- The identifier character class `[A-Za-z0-9_$ß]` (the source file holds
the two bytes of `ß` in mojibake form; both spellings are included, no
claim uses either). -/
def isIdentChar (c : Char) : Bool :=
  c.isAlphanum || c = '_' || c = '$' || c = 'ß' || c = 'Ã' || c = 'Ÿ'

/-- Matcher for the identifier rule. -/
def identMatch : List Char → Option Nat := fun cs =>
  let n := (cs.takeWhile isIdentChar).length
  if n = 0 then none else some n

/-- Matcher for a quoted string (`"[^"]*"` and the `'` analogue). -/
def strMatch (q : Char) : List Char → Option Nat := fun cs =>
  match cs with
  | c :: rest =>
      if c = q then
        let body := rest.takeWhile (· ≠ q)
        match rest.drop body.length with
        | c2 :: _ => if c2 = q then some (body.length + 2) else none
        | [] => none
      else none
  | [] => none

/-- Matcher for `[=!]=`. -/
def eqOpMatch : List Char → Option Nat := fun cs =>
  match cs with
  | a :: b :: _ => if (a = '=' || a = '!') && b = '=' then some 2 else none
  | _ => none

/-- Matcher for `[><]=?` (greedy on the optional `=`). -/
def relOpMatch : List Char → Option Nat := fun cs =>
  match cs with
  | a :: rest =>
      if a = '>' || a = '<' then
        match rest with
        | '=' :: _ => some 2
        | _ => some 1
      else none
  | [] => none

/-- The expression token spec of `ExpressionParser`, in source order. -/
def exprRules : List TokenRule :=
  [ (wsMatch, none),
    (commentMatch, none),
    (litM "(", some "L_PARENTHESIS"),
    (litM ")", some "R_PARENTHESIS"),
    (litM "[", some "L_BRACKET"),
    (litM "]", some "R_BRACKET"),
    (litListM [braceOpen], some "L_CURLY"),
    (litListM [braceClose], some "R_CURLY"),
    (litM ",", some "COMMA"),
    (litM ".", some "DOT"),
    (kwM "import", some "IMPORT"),
    (kwM "with", some "WITH"),
    (kwM "for", some "FOR"),
    (kwM "in", some "IN"),
    (kwM "if", some "IF"),
    (kwM "else", some "ELSE"),
    (kwM "true", some "TRUE"),
    (kwM "false", some "FALSE"),
    (kwM "null", some "NULL"),
    (charSetM ['+', '-'], some "ADDITIVE"),
    (charSetM ['*', '/'], some "MULTIPLICATIVE"),
    (eqOpMatch, some "EQUALITY"),
    (relOpMatch, some "RELATIONAL"),
    (litM "&&", some "AND"),
    (litM "||", some "OR"),
    (litM "!", some "NOT"),
    (numMatch, some "NUMBER"),
    (identMatch, some "IDENTIFIER"),
    (litM "?", some "QUESTIONMARK"),
    (litM ":", some "COLON"),
    (strMatch '"', some "STRING"),
    (strMatch squote, some "STRING") ]

/-- Matcher for `{kw .+}` (greedy tail: the `IMPORT`/`SWITCH`/`CASE`
template rules, `kw` including its trailing space). -/
def kwTagMatch (kw : String) : List Char → Option Nat := fun cs =>
  if litStarts (braceOpen :: kw.toList) cs then
    let tail := cs.drop (1 + kw.toList.length)
    match lastBraceIdx tail with
    | some j => if 1 ≤ j then some (1 + kw.toList.length + j + 1) else none
    | none => none
  else none

/-- Flag characters `#`/`!`. -/
def isFlagChar (c : Char) : Bool := c = '#' || c = '!'

/-- Try a body after exactly `fc` flag characters. -/
def withFlagCount (fc : Nat) (body : List Char → Option Nat)
    (cs : List Char) : Option Nat :=
  if (cs.take fc).length = fc && (cs.take fc).all isFlagChar then
    (body (cs.drop fc)).map (fc + ·)
  else none

/-- Match `[#!]{0,2}` greedily (with backtracking across the counts) in
front of `body`. -/
def flagsThen (body : List Char → Option Nat) (cs : List Char) : Option Nat :=
  (withFlagCount 2 body cs).orElse fun _ =>
    (withFlagCount 1 body cs).orElse fun _ => withFlagCount 0 body cs

/-- Matcher for `{[#!]{0,2}kw .+}` (the `IF`/`ELSEIF`/`FOR` template
rules, `kw` including its trailing space; greedy `.+`). -/
def blockTagMatch (kw : String) : List Char → Option Nat := fun cs =>
  match cs with
  | c :: rest =>
      if c = braceOpen then
        (flagsThen
          (fun tl =>
            if litStarts kw.toList tl then
              match lastBraceIdx (tl.drop kw.toList.length) with
              | some j => if 1 ≤ j then some (kw.toList.length + j + 1) else none
              | none => none
            else none)
          rest).map (· + 1)
      else none
  | [] => none

/-- Matcher for `{[#!]{0,2}else}`. -/
def elseTagMatch : List Char → Option Nat := fun cs =>
  match cs with
  | c :: rest =>
      if c = braceOpen then
        (flagsThen (litListM ("else".toList ++ [braceClose])) rest).map (· + 1)
      else none
  | [] => none

/-- Matcher for a closing tag `{/kw}`. -/
def endTagMatch (kw : String) : List Char → Option Nat :=
  litListM (braceOpen :: '/' :: kw.toList ++ [braceClose])

/-- Matcher for the catch-all `{[#!]{0,2}.*?}` tag rule (lazy `.*?`). -/
def tagMatch : List Char → Option Nat := fun cs =>
  match cs with
  | c :: rest =>
      if c = braceOpen then
        (flagsThen (fun tl => (firstBraceIdx tl).map (· + 1)) rest).map (· + 1)
      else none
  | [] => none

/-- Smallest index of a `>` preceded only by `.`-matchable characters —
the end of the lazy `.*?>` in the script/style rule. -/
def firstGtIdx : List Char → Option Nat
  | [] => none
  | c :: rest =>
      if c = '>' then some 0
      else if noNl c then (firstGtIdx rest).map (· + 1)
      else none

/-- First occurrence of `</script>` or `</style>` (alternation in source
order), returning (index, length of the closing tag). -/
def findCloseTag : List Char → Option (Nat × Nat)
  | [] => none
  | c :: rest =>
      if litStarts ("</script>".toList) (c :: rest) then some (0, 9)
      else if litStarts ("</style>".toList) (c :: rest) then some (0, 8)
      else (findCloseTag rest).map (fun p => (p.1 + 1, p.2))

/-- Matcher for `<(style|script).*?>[\s\S]*?<\/(script|style)>`. -/
def scriptStyleMatch : List Char → Option Nat := fun cs =>
  let go (pre : String) : Option Nat :=
    if litStarts pre.toList cs then
      let afterOpen := cs.drop pre.toList.length
      match firstGtIdx afterOpen with
      | some j =>
          let body := afterOpen.drop (j + 1)
          match findCloseTag body with
          | some (i, cl) => some (pre.toList.length + j + 1 + i + cl)
          | none => none
      | none => none
    else none
  (go "<style").orElse fun _ => go "<script"

/-- The template token spec of `TemplateParser`, in source order. -/
def tmplRules : List TokenRule :=
  [ (commentMatch, none),
    (scriptStyleMatch, some "TEXT"),
    (kwTagMatch "import ", some "IMPORT"),
    (kwTagMatch "switch ", some "SWITCH"),
    (kwTagMatch "case ", some "CASE"),
    (blockTagMatch "if ", some "IF"),
    (blockTagMatch "else if ", some "ELSEIF"),
    (elseTagMatch, some "ELSE"),
    (blockTagMatch "for ", some "FOR"),
    (endTagMatch "if", some "IF_END"),
    (endTagMatch "for", some "FOR_END"),
    (endTagMatch "switch", some "SWITCH_END"),
    (endTagMatch "case", some "CASE_END"),
    (tagMatch, some "TAG"),
    (fun cs => match cs with | _ :: _ => some 1 | [] => none, some "TEXT") ]

/-- Try the rules in declared order; first match wins. -/
def tokTry : List TokenRule → List Char → Option (Option String × Nat)
  | [], _ => none
  | (m, ty) :: rules, cs =>
      match m cs with
      | some len => some (ty, len)
      | none => tokTry rules cs

/-- Newlines consumed by a match (the line counter counts `\n`). -/
def countNl (cs : List Char) : Nat := (cs.filter (· = '\n')).length

/-- `traverse_next_token`: find the next real token (recursing over
discarded matches), updating line, remaining input and the `input` view.
The fuel is `rest.length + 1`; every rule matches at least one character,
so it cannot run out. -/
def traverseGo : Nat → List TokenRule → List Char → Nat → List Char →
    Except JSErr (Option Token × List Char × Nat × List Char)
  | 0, _, _, _, _ => .error (nanoErr "tokenizer fuel exhausted")
  | fuel + 1, rules, rest, line, view =>
      match rest with
      | [] => .ok (none, [], line, view)
      | c :: _ =>
          let view := rest
          match tokTry rules rest with
          | none =>
              .error (nanoErr ("Unexpected token " ++ String.mk [c] ++
                " (line " ++ toString line ++ ")"))
          | some (ty?, len) =>
              let matched := rest.take len
              let line' := line + countNl matched
              let rest' := rest.drop len
              match ty? with
              | none => traverseGo fuel rules rest' line' view
              | some ty =>
                  .ok (some ⟨ty, String.mk matched⟩, rest', line', view)

/-- See `traverseGo`. -/
def traverseNext (rules : List TokenRule) (rest : List Char) (line : Nat)
    (view : List Char) :
    Except JSErr (Option Token × List Char × Nat × List Char) :=
  traverseGo (rest.length + 1) rules rest line view

/-- `Tokenizer(...)` construction: `line = line_offset || 1`, then the
first token is prefetched eagerly. -/
def mkTok (rules : List TokenRule) (input : List Char) (lineOffset : Nat) :
    Except JSErr TokState := do
  let line := if lineOffset = 0 then 1 else lineOffset
  let (la, rest, line', view) ← traverseNext rules input line input
  .ok ⟨rest, line', la, view⟩

/-- `advance(expected?)`: fail on an exhausted stream or a type mismatch
(`advance()` without an argument — the template parser's `Skip` — always
mismatches, since a token's type is never `undefined`); otherwise return
the lookahead and prefetch the next token. -/
def advanceTok (rules : List TokenRule) (st : TokState)
    (expected : Option String) : Except JSErr (Token × TokState) :=
  match st.lookahead with
  | none =>
      .error (nanoErr ("Unexpected end of input (line " ++ toString st.line ++ ")"))
  | some tok =>
      let mismatch :=
        match expected with
        | some t => tok.type != t
        | none => true
      if mismatch then
        .error (nanoErr ("Unexpected token " ++ tok.value ++
          " (line " ++ toString st.line ++ ")"))
      else
        match traverseNext rules st.rest st.line st.inputView with
        | .ok (la, rest, line, view) => .ok (tok, ⟨rest, line, la, view⟩)
        | .error e => .error e

/-! ## AST (<types.ts>)

One inductive covers the whole tagged union the renderer dispatches on.
The single-field statement wrappers are flattened: `If` carries the
`IfStatement`'s `test` directly, `For` carries the `ForStatement`'s
`identifiers`/`iterator`, `Import` carries the `ImportStatement`'s `path`
and its `(key, value)` argument pairs.  `flags` is `none` when the source
leaves the optional field unset. -/
inductive Node where
  | BlockList : List Node → Node
  | Text : String → Option (List Char) → Node
  | Tag : Node → Option (List Char) → Node
  | Import : Node → List (String × Node) → Node
  | If : Node → Node → Option Node → Node
  | Else : Node → Node
  | For : List String → Node → Node → Node
  | ConditionalExpression : Node → Node → Node → Node
  | LogicalExpression : String → Node → Node → Node
  | BinaryExpression : String → Node → Node → Node
  | UnaryExpression : String → Node → Node
  | MemberExpression : Node → Node → Node
  | MemberBracketExpression : Node → Node → Node
  | CallExpression : Node → List Node → Node
  | Identifier : String → Node
  | StringLiteral : String → Node
  | NumericLiteral : QNum → Node
  | BooleanLiteral : Bool → Node
  | NullLiteral : Node
deriving Repr

/-! ## Expression parser (`ExpressionParser` in <parser.ts>)

The mutually recursive productions are organised as helper combinators
parameterised by the full-`Expression` parser (closed at one fuel level
lower by `parseExprGo`), so that all recursion is structural and every
closed run reduces definitionally.  The generic source helpers
`BinaryExpression(method, type)` and `LogicalExpression(method, type)`
become `BinaryExpressionW`/`LogicalExpressionW`. -/

/-- Result of a production: a node and the tokenizer state. -/
abbrev PRes := Except JSErr (Node × TokState)

/-- A production closed over its sub-parsers. -/
abbrev PFn := TokState → PRes

/-- `advance` against the expression token spec. -/
def eAdvance (st : TokState) (t : String) : Except JSErr (Token × TokState) :=
  advanceTok exprRules st (some t)

/-- Type of the lookahead token, if any. -/
def nextType (st : TokState) : Option String := st.lookahead.map (·.type)

/-- `tokenizer.next() && tokenizer.next()?.type === t`. -/
def nextIs (st : TokState) (t : String) : Bool :=
  match st.lookahead with
  | some tok => tok.type == t
  | none => false

/-- `value.slice(1, -1)`. -/
def sliceInner (s : String) : String :=
  String.mk ((s.toList.drop 1).dropLast)

/-- The unreachable out-of-fuel error. -/
def fuelErr : JSErr := nanoErr "parser fuel exhausted"

/-- `Identifier()`. -/
def IdentifierP (st : TokState) : PRes := do
  let (tok, st) ← eAdvance st "IDENTIFIER"
  .ok (.Identifier tok.value, st)

/-- `Literal()`: dispatch on the lookahead type, defaulting to the
`Unknown tag` error built from the tokenizer's current `input()` slice and
line. -/
def LiteralP (st : TokState) : PRes :=
  match nextType st with
  | some "TRUE" => do
      let (_, st) ← eAdvance st "TRUE"
      .ok (.BooleanLiteral true, st)
  | some "FALSE" => do
      let (_, st) ← eAdvance st "FALSE"
      .ok (.BooleanLiteral false, st)
  | some "NULL" => do
      let (_, st) ← eAdvance st "NULL"
      .ok (.NullLiteral, st)
  | some "STRING" => do
      let (tok, st) ← eAdvance st "STRING"
      .ok (.StringLiteral (sliceInner tok.value), st)
  | some "NUMBER" => do
      let (tok, st) ← eAdvance st "NUMBER"
      .ok (.NumericLiteral (parseDecimal tok.value.toList), st)
  | _ =>
      .error (nanoErr ("Unknown tag \x7b" ++ String.mk st.inputView ++
        "\x7d (line: " ++ toString st.line ++ ")"))

/-- `ParenthesisExpression()`. -/
def ParenthesisW (exprP : PFn) : PFn := fun st => do
  let (_, st) ← eAdvance st "L_PARENTHESIS"
  let (e, st) ← exprP st
  let (_, st) ← eAdvance st "R_PARENTHESIS"
  .ok (e, st)

/-- `PrimaryExpression()`. -/
def PrimaryW (exprP : PFn) : PFn := fun st =>
  match nextType st with
  | some "L_PARENTHESIS" => ParenthesisW exprP st
  | some "IDENTIFIER" => IdentifierP st
  | _ => LiteralP st

/-- The do-while of `FunctionArgumentList()`. -/
def argListGo (exprP : PFn) : Nat → List Node → TokState →
    Except JSErr (List Node × TokState)
  | 0, _, _ => .error fuelErr
  | f + 1, acc, st => do
      let (e, st) ← exprP st
      if nextIs st "COMMA" then do
        let (_, st) ← eAdvance st "COMMA"
        argListGo exprP f (acc ++ [e]) st
      else .ok (acc ++ [e], st)

/-- `FunctionArgumentList()`. -/
def FunctionArgumentListW (exprP : PFn) (f : Nat) (st : TokState) :
    Except JSErr (List Node × TokState) := do
  let (_, st) ← eAdvance st "L_PARENTHESIS"
  let (args, st) ←
    if st.lookahead.isSome && !nextIs st "R_PARENTHESIS" then
      argListGo exprP f [] st
    else .ok ([], st)
  let (_, st) ← eAdvance st "R_PARENTHESIS"
  .ok (args, st)

/-- `CallExpression(nested)` (recursing over chained calls `f()()`). -/
def CallExpressionW (exprP : PFn) : Nat → Node → TokState → PRes
  | 0, _, _ => .error fuelErr
  | f + 1, callee, st => do
      let (args, st) ← FunctionArgumentListW exprP f st
      let cur := Node.CallExpression callee args
      if nextIs st "L_PARENTHESIS" then CallExpressionW exprP f cur st
      else .ok (cur, st)

/-- The while-loop of `MemberExpression()`: dot access, bracket access and
call-argument lists interleaved. -/
def MemberLoopW (exprP : PFn) : Nat → Node → TokState → PRes
  | 0, _, _ => .error fuelErr
  | f + 1, object, st =>
      match nextType st with
      | some "DOT" => do
          let (_, st) ← eAdvance st "DOT"
          let (prop, st) ← IdentifierP st
          MemberLoopW exprP f (.MemberExpression object prop) st
      | some "L_BRACKET" => do
          let (_, st) ← eAdvance st "L_BRACKET"
          let (prop, st) ← exprP st
          let (_, st) ← eAdvance st "R_BRACKET"
          MemberLoopW exprP f (.MemberBracketExpression object prop) st
      | some "L_PARENTHESIS" => do
          let (object, st) ← CallExpressionW exprP f object st
          MemberLoopW exprP f object st
      | _ => .ok (object, st)

/-- `MemberExpression()`. -/
def MemberExpressionW (exprP : PFn) (f : Nat) : PFn := fun st => do
  let (object, st) ← PrimaryW exprP st
  MemberLoopW exprP f object st

/-- `UnaryExpression()` (self-recursive over stacked prefixes). -/
def UnaryExpressionW (exprP : PFn) : Nat → TokState → PRes
  | 0, _ => .error fuelErr
  | f + 1, st =>
      match nextType st with
      | some "ADDITIVE" => do
          let (opTok, st) ← eAdvance st "ADDITIVE"
          let (v, st) ← UnaryExpressionW exprP f st
          .ok (.UnaryExpression opTok.value v, st)
      | some "NOT" => do
          let (opTok, st) ← eAdvance st "NOT"
          let (v, st) ← UnaryExpressionW exprP f st
          .ok (.UnaryExpression opTok.value v, st)
      | _ => MemberExpressionW exprP f st

/-- The left-leaning chain loop shared by the generic source helpers. -/
def chainW (mkNode : String → Node → Node → Node) (tokType : String)
    (sub : PFn) : Nat → Node → TokState → PRes
  | 0, _, _ => .error fuelErr
  | f + 1, left, st =>
      if nextIs st tokType then do
        let (opTok, st) ← eAdvance st tokType
        let (right, st) ← sub st
        chainW mkNode tokType sub f (mkNode opTok.value left right) st
      else .ok (left, st)

/-- `BinaryExpression(expression_method, token_type)`. -/
def BinaryExpressionW (sub : PFn) (tokType : String) (f : Nat) : PFn :=
  fun st => do
    let (left, st) ← sub st
    chainW (fun o l r => .BinaryExpression o l r) tokType sub f left st

/-- `LogicalExpression(expression_method, token_type)`. -/
def LogicalExpressionW (sub : PFn) (tokType : String) (f : Nat) : PFn :=
  fun st => do
    let (left, st) ← sub st
    chainW (fun o l r => .LogicalExpression o l r) tokType sub f left st

/-- `MultiExpression()`. -/
def MultiExpressionW (exprP : PFn) (f : Nat) : PFn :=
  BinaryExpressionW (fun st => UnaryExpressionW exprP f st) "MULTIPLICATIVE" f

/-- `AddExpression()`. -/
def AddExpressionW (exprP : PFn) (f : Nat) : PFn :=
  BinaryExpressionW (MultiExpressionW exprP f) "ADDITIVE" f

/-- `RelationalExpression()`. -/
def RelationalExpressionW (exprP : PFn) (f : Nat) : PFn :=
  BinaryExpressionW (AddExpressionW exprP f) "RELATIONAL" f

/-- `EqualityExpression()`. -/
def EqualityExpressionW (exprP : PFn) (f : Nat) : PFn :=
  BinaryExpressionW (RelationalExpressionW exprP f) "EQUALITY" f

/-- `AndExpression()`.  Translated verbatim from the source, which makes
this production loop on the token type `OR` (the `||` operator). -/
def AndExpressionW (exprP : PFn) (f : Nat) : PFn :=
  LogicalExpressionW (EqualityExpressionW exprP f) "OR" f

/-- `OrExpression()`.  Translated verbatim from the source, which makes
this production loop on the token type `AND` (the `&&` operator). -/
def OrExpressionW (exprP : PFn) (f : Nat) : PFn :=
  LogicalExpressionW (AndExpressionW exprP f) "AND" f

/-- `ConditionalExpression()`. -/
def ConditionalExpressionW (exprP : PFn) (f : Nat) : PFn := fun st => do
  let (left, st) ← OrExpressionW exprP f st
  if nextIs st "QUESTIONMARK" then do
    let (_, st) ← eAdvance st "QUESTIONMARK"
    let (consequent, st) ← exprP st
    let (_, st) ← eAdvance st "COLON"
    let (alternate, st) ← exprP st
    .ok (.ConditionalExpression left consequent alternate, st)
  else .ok (left, st)

/-- `Expression()`, the fuelled knot of the productions. -/
def parseExprGo : Nat → TokState → PRes
  | 0, _ => .error fuelErr
  | f + 1, st => ConditionalExpressionW (parseExprGo f) f st

/-- The do-while of `IdentifierList()` (values extracted as in
`ForStatement`'s `.map(node => node.value)`). -/
def IdentifierListGo : Nat → List String → TokState →
    Except JSErr (List String × TokState)
  | 0, _, _ => .error fuelErr
  | f + 1, acc, st => do
      let (tok, st) ← eAdvance st "IDENTIFIER"
      if nextIs st "COMMA" then do
        let (_, st) ← eAdvance st "COMMA"
        IdentifierListGo f (acc ++ [tok.value]) st
      else .ok (acc ++ [tok.value], st)

/-- `ForStatement()`: identifiers, `in`, iterator expression. -/
def ForStatementP (f : Nat) (st : TokState) :
    Except JSErr ((List String × Node) × TokState) := do
  let (_, st) ← eAdvance st "FOR"
  let (ids, st) ← IdentifierListGo f [] st
  let (_, st) ← eAdvance st "IN"
  let (iter, st) ← parseExprGo f st
  .ok ((ids, iter), st)

/-- `IfStatement()`: an optional `else` keyword (the `else if` form), then
`if` and the test expression. -/
def IfStatementP (f : Nat) (st : TokState) : PRes := do
  let st ←
    if nextIs st "ELSE" then do
      let (_, st) ← eAdvance st "ELSE"
      pure st
    else pure st
  let (_, st) ← eAdvance st "IF"
  parseExprGo f st

/-- The do-while over `ImportStatementArgument()`s. -/
def ImportArgsGo : Nat → List (String × Node) → TokState →
    Except JSErr (List (String × Node) × TokState)
  | 0, _, _ => .error fuelErr
  | f + 1, acc, st => do
      let (keyTok, st) ← eAdvance st "IDENTIFIER"
      let (_, st) ← eAdvance st "COLON"
      let (v, st) ← parseExprGo f st
      let acc := acc ++ [(keyTok.value, v)]
      if nextIs st "COMMA" then do
        let (_, st) ← eAdvance st "COMMA"
        ImportArgsGo f acc st
      else .ok (acc, st)

/-- `ImportStatement()`: path expression and optional
`with (key: expr, ...)` argument list. -/
def ImportStatementP (f : Nat) (st : TokState) :
    Except JSErr ((Node × List (String × Node)) × TokState) := do
  let (_, st) ← eAdvance st "IMPORT"
  let (path, st) ← parseExprGo f st
  if nextIs st "WITH" then do
    let (_, st) ← eAdvance st "WITH"
    let (_, st) ← eAdvance st "L_PARENTHESIS"
    let (args, st) ← ImportArgsGo f [] st
    let (_, st) ← eAdvance st "R_PARENTHESIS"
    .ok ((path, args), st)
  else .ok ((path, []), st)

/-- `ExpressionParser(input, line_offset).expression()` (trailing tokens
are ignored, as in the source). -/
def parseExpressionString (f : Nat) (input : String) (lineOffset : Nat) :
    Except JSErr Node := do
  let st ← mkTok exprRules input.toList lineOffset
  let (n, _) ← parseExprGo f st
  .ok n

/-! ## Template parser (`TemplateParser` in <parser.ts>) -/

/-- `advance` against the template token spec (`none` models the
argument-less `advance()` of `Skip`). -/
def tAdvance (st : TokState) (t : Option String) :
    Except JSErr (Token × TokState) :=
  advanceTok tmplRules st t

/-- `handle_statement_tag`: strip the braces, split off up to two leading
`#`/`!` flag characters, keep the rest as the expression string. -/
def handle_statement_tag (tagValue : String) : List Char × String :=
  let raw := (tagValue.toList.drop 1).dropLast
  let flags := (raw.takeWhile isFlagChar).take 2
  (flags, String.mk (raw.drop flags.length))

/-- Stamp block flags onto a `Text` node
(`next_node.type === 'Text' && flags.length > 0`). -/
def stampText (node : Node) (flags : List Char) : Node :=
  match node with
  | .Text s fl => if flags.length > 0 then .Text s (some flags) else .Text s fl
  | n => n

/-- The `try { tokenizer.advance('IF_END') } catch` step closing an `If`
block: any advance failure becomes the missing-closing-tag `NanoError`,
carrying the tokenizer's line at the point of failure. -/
def closeIfBlock (st : TokState) : Except JSErr TokState :=
  match tAdvance st (some "IF_END") with
  | .ok (_, st') => .ok st'
  | .error _ =>
      .error (nanoErr ("Missing \x7b/if\x7d closing tag (line " ++
        toString st.line ++ ")"))

/-- The analogous closing step of a `For` block. -/
def closeForBlock (st : TokState) : Except JSErr TokState :=
  match tAdvance st (some "FOR_END") with
  | .ok (_, st') => .ok st'
  | .error _ =>
      .error (nanoErr ("Missing \x7b/for\x7d closing tag (line " ++
        toString st.line ++ ")"))

/-- The type of `parse_token`, abstracted for the block helpers. -/
abbrev PTok := String → TokState → Except JSErr (Option Node × TokState)

/-- The while-loop of `BlockList(limit, flags)`: accumulate blocks until
the stream ends or the lookahead is the limit type; `Text` children
receive the enclosing block's flags. -/
def BlockListGo (pt : PTok) : Nat → Option String → List Char → List Node →
    TokState → Except JSErr (List Node × TokState)
  | 0, _, _, _, _ => .error fuelErr
  | f + 1, limit, flags, acc, st =>
      match st.lookahead with
      | none => .ok (acc, st)
      | some tok =>
          let stop := match limit with | some l => tok.type == l | none => false
          if stop then .ok (acc, st)
          else do
            let (node?, st) ← pt tok.type st
            match node? with
            | some node => BlockListGo pt f limit flags (acc ++ [stampText node flags]) st
            | none => BlockListGo pt f limit flags acc st

/-- `BlockList(limit, flags)`, wrapped as a `BlockList` node. -/
def BlockListW (pt : PTok) (f : Nat) (limit : Option String)
    (flags : List Char) (st : TokState) : Except JSErr (Node × TokState) := do
  let (nodes, st) ← BlockListGo pt f limit flags [] st
  .ok (.BlockList nodes, st)

/-- `Import()` (template level): the tag's inner text parsed as an import
statement, with line offset `tokenizer.line() - 1`. -/
def ImportBlockP (f : Nat) (st : TokState) :
    Except JSErr (Option Node × TokState) := do
  let (tok, st) ← tAdvance st (some "IMPORT")
  let expression := sliceInner tok.value
  let est ← mkTok exprRules expression.toList (st.line - 1)
  let ((path, args), _) ← ImportStatementP f est
  .ok (some (.Import path args), st)

/-- `Tag()`. -/
def TagBlockP (f : Nat) (st : TokState) :
    Except JSErr (Option Node × TokState) := do
  let (tok, st) ← tAdvance st (some "TAG")
  let (flags, expression) := handle_statement_tag tok.value
  let est ← mkTok exprRules expression.toList (st.line - 1)
  let (value, _) ← parseExprGo f est
  .ok (some (if flags.length > 0 then .Tag value (some flags) else .Tag value none), st)

/-- The coalescing loop of `Text()`. -/
def TextGo : Nat → String → TokState → Except JSErr (String × TokState)
  | 0, _, _ => .error fuelErr
  | f + 1, acc, st =>
      if nextIs st "TEXT" then do
        let (tok, st) ← tAdvance st (some "TEXT")
        TextGo f (acc ++ tok.value) st
      else .ok (acc, st)

/-- `Text()`: consecutive `TEXT` tokens merged into one node. -/
def TextBlockP (f : Nat) (st : TokState) :
    Except JSErr (Option Node × TokState) := do
  let (tok, st) ← tAdvance st (some "TEXT")
  let (value, st) ← TextGo f tok.value st
  .ok (some (.Text value none), st)

/-- `Skip()`: `tokenizer.advance()` with no argument — the type comparison
against `undefined` always fails, so this always raises. -/
def SkipBlockP (st : TokState) : Except JSErr (Option Node × TokState) := do
  let (_, st) ← tAdvance st none
  .ok (none, st)

/-- `Else()`. -/
def ElseBlockW (pt : PTok) (f : Nat) (st : TokState) :
    Except JSErr (Option Node × TokState) := do
  let (tok, st) ← tAdvance st (some "ELSE")
  let (flags, _) := handle_statement_tag tok.value
  let (value, st) ← BlockListW pt f (some "IF_END") flags st
  .ok (some (.Else value), st)

/-- `For()`: statement, bounded body, mandatory closing tag. -/
def ForBlockW (pt : PTok) (f : Nat) (st : TokState) :
    Except JSErr (Option Node × TokState) := do
  let (tok, st) ← tAdvance st (some "FOR")
  let (flags, expression) := handle_statement_tag tok.value
  let est ← mkTok exprRules expression.toList (st.line - 1)
  let ((ids, iter), _) ← ForStatementP f est
  let (value, st) ← BlockListW pt f (some "FOR_END") flags st
  let st ← closeForBlock st
  .ok (some (.For ids iter value), st)

/-- The scanning loop of `If()`: accumulate the consequent, route
`ELSEIF`/`ELSE` nodes into `alternate`, stop at `IF_END` or end of
stream. -/
def IfLoopGo (pt : PTok) : Nat → List Char → List Node → Option Node →
    TokState → Except JSErr (List Node × Option Node × TokState)
  | 0, _, _, _, _ => .error fuelErr
  | f + 1, flags, consequent, alternate, st =>
      match st.lookahead with
      | none => .ok (consequent, alternate, st)
      | some tok =>
          if tok.type == "IF_END" then .ok (consequent, alternate, st)
          else do
            let nt := tok.type
            let (node?, st) ← pt nt st
            match node? with
            | some node =>
                if nt == "ELSEIF" || nt == "ELSE" then
                  IfLoopGo pt f flags consequent (some node) st
                else
                  IfLoopGo pt f flags (consequent ++ [stampText node flags]) alternate st
            | none => IfLoopGo pt f flags consequent alternate st

/-- `If(token_type)`: only the outermost `IF` (not an `ELSEIF` recursion)
consumes the closing `IF_END`. -/
def IfBlockW (pt : PTok) (f : Nat) (tokType : String) (st : TokState) :
    Except JSErr (Option Node × TokState) := do
  let (tok, st) ← tAdvance st (some tokType)
  let (flags, expression) := handle_statement_tag tok.value
  let est ← mkTok exprRules expression.toList (st.line - 1)
  let (test, _) ← IfStatementP f est
  let (consequent, alternate, st) ← IfLoopGo pt f flags [] none st
  let st ← if tokType == "IF" then closeIfBlock st else .ok st
  .ok (some (.If test (.BlockList consequent) alternate), st)

/-- `parse_token(type)`, the fuelled knot of the template parser. -/
def parseTokenF : Nat → String → TokState → Except JSErr (Option Node × TokState)
  | 0, _, _ => .error fuelErr
  | f + 1, ty, st =>
      match ty with
      | "IMPORT" => ImportBlockP f st
      | "IF" => IfBlockW (parseTokenF f) f "IF" st
      | "ELSEIF" => IfBlockW (parseTokenF f) f "ELSEIF" st
      | "ELSE" => ElseBlockW (parseTokenF f) f st
      | "FOR" => ForBlockW (parseTokenF f) f st
      | "TAG" => TagBlockP f st
      | "TEXT" => TextBlockP f st
      | _ => SkipBlockP st

/-- `parse(input_template)`: tokenize and build the root `BlockList`. -/
def parseTemplate (f : Nat) (input : String) : Except JSErr Node := do
  let st ← mkTok tmplRules input.toList 0
  let (bl, _) ← BlockListW (parseTokenF f) f none [] st
  .ok bl

/-! ## Renderer (<renderer.ts>)

The `async` renderer awaits strictly sequentially; it is modelled by a
sequential monad threading a log of performed host-function calls (the
observable side effects) and a JS exception channel. -/

/-- A performed host-function call: function name and evaluated
arguments. -/
abbrev CallEvent := String × List Value

/-- A data context (a JS object with string keys, in insertion order). -/
abbrev Ctx := List (String × Value)

/-- The renderer's effect monad. -/
def EvalM (α : Type) := List CallEvent → Except JSErr α × List CallEvent

instance : Monad EvalM where
  pure a := fun s => (.ok a, s)
  bind x k := fun s =>
    match x s with
    | (.ok a, s') => k a s'
    | (.error e, s') => (.error e, s')

/-- Run an `EvalM` computation on a call log. -/
def runE {α : Type} (x : EvalM α) (s : List CallEvent) :
    Except JSErr α × List CallEvent := x s

/-- Throw a JS exception. -/
def throwE {α : Type} (e : JSErr) : EvalM α := fun s => (.error e, s)

/-- Lift an error-or-value (e.g. a collaborator result). -/
def liftE {α : Type} (x : Except JSErr α) : EvalM α := fun s => (x, s)

/-- `try ... catch`. -/
def tryCatchE {α : Type} (x : EvalM α) (h : JSErr → EvalM α) : EvalM α :=
  fun s =>
    match x s with
    | (.error e, s') => h e s'
    | r => r

/-- Record a host-function call in the log. -/
def logCall (n : String) (args : List Value) : EvalM Unit :=
  fun s => (.ok (), s ++ [(n, args)])

/-- The renderer's fixed collaborators and inputs: the root data context
(`input_data`), the settings (`import_directory`), the external file
loader (`Deno.readTextFile`, which signals not-found with an error whose
`name` is `NotFound`), and the behaviour of the context-provided host
functions. -/
structure Env where
  input_data : Ctx
  import_directory : String
  files : String → Except JSErr String
  funcs : String → List Value → Value

/-- Object property lookup (first binding wins; `ctxSet` keeps keys
unique). -/
def ctxGet : Ctx → String → Option Value
  | [], _ => none
  | (k, v) :: rest, key => if k == key then some v else ctxGet rest key

/-- JS object assignment `ctx[key] = v`: overwrite in place, else append
(insertion order preserved). -/
def ctxSet : Ctx → String → Value → Ctx
  | [], key, v => [(key, v)]
  | (k, w) :: rest, key, v =>
      if k == key then (k, v) :: rest else (k, w) :: ctxSet rest key v

/-- Path collaborator (Deno std, POSIX): absolute means leading `/`. -/
def is_path_absolute (p : String) : Bool :=
  match p.toList with
  | '/' :: _ => true
  | _ => false

/-- Path collaborator (Deno std, POSIX): plain segment join (the std
additionally normalises `.`/`..` segments, which no exercised path
contains). -/
def join_path (a b : String) : String := if a == "" then b else a ++ "/" ++ b

/-- A canonical array-index string (the form under which JS array/string
indexing by a coerced key hits an element). -/
def canonicalNat? (s : String) : Option Nat :=
  match s.toList with
  | [] => none
  | ['0'] => some 0
  | c :: cs =>
      if c.isDigit && c ≠ '0' && cs.all (·.isDigit) then
        some (digitsToNat (c :: cs))
      else none

/-- JS property read `object[key]` for the object kinds the engine
indexes.  Strings and arrays expose `length` and their elements; plain
objects their own keys; anything else yields `undefined` (built-in
prototype methods are host functions the model does not carry — no claim
reads one). -/
def getMemberKey (v : Value) (key : String) : Value :=
  match v with
  | .obj fields => (ctxGet fields key).getD .undef
  | .arr xs =>
      if key == "length" then .num (.fin (qInt (xs.toList.length : Nat)))
      else
        match canonicalNat? key with
        | some i => (xs.toList.get? i).getD .undef
        | none => .undef
  | .str s =>
      if key == "length" then .num (.fin (qInt (s.length : Nat)))
      else
        match canonicalNat? key with
        | some i =>
            match s.toList.get? i with
            | some c => .str (String.mk [c])
            | none => .undef
        | none => .undef
  | _ => (.undef : Value)

/-- `node.property.value` of a dot member access.  The parser only ever
places an `Identifier` here; the literal cases mirror the `.value` field
of hand-built nodes. -/
def propertyKey : Node → String
  | .Identifier s => s
  | .StringLiteral s => s
  | .NumericLiteral q => qToString q
  | .BooleanLiteral b => if b then "true" else "false"
  | .NullLiteral => "null"
  | _ => ""

/-- `Object.prototype.toString.call(v).slice(8, -1).toLowerCase()`. -/
def return_type : Value → String
  | .arr _ => "array"
  | .str _ => "string"
  | .num _ => "number"
  | .obj _ => "object"
  | .null => "null"
  | .undef => "undefined"
  | .bool _ => "boolean"
  | .func _ => "function"

/-- `Math.abs` then the array length coercion of
`Array.from({length})` (truncating). -/
def absLen : JSNum → Nat
  | .nan => 0
  | .fin q => q.num.natAbs / q.den

/-- The iterator classification of `For` (the `switch (iterator_type)`;
the constructor match realises exactly the four `return_type` cases
`array`/`string`/`number`/`object`, every other type leaving the iterator
`null`). -/
def forPairs : Value → Option (List (Value × Value))
  | .arr xs => some (xs.toList.enum.map (fun p => (p.2, .num (.fin (qInt (p.1 : Nat))))))
  | .str s => some (s.toList.enum.map (fun p => (.str (String.mk [p.2]), .num (.fin (qInt (p.1 : Nat))))))
  | .num n => some ((List.range (absLen n)).map (fun i => (.num (.fin (qInt (i + 1 : Nat))), .num (.fin (qInt (i : Nat))))))
  | .obj fields => some (fields.map (fun p => (.str p.1, p.2)))
  | _ => none

/-- The whitespace-collapsing first replace of `return_trimmed_string`
(`/\>\s+\</g` → `><`), scanned left to right; fuelled by the input
length. -/
def trimAnglesGo : Nat → List Char → List Char
  | 0, cs => cs
  | f + 1, cs =>
      match cs with
      | [] => []
      | '>' :: rest =>
          let ws := rest.takeWhile isJsSpace
          if ws.length > 0 then
            match rest.drop ws.length with
            | '<' :: tail => '>' :: '<' :: trimAnglesGo f tail
            | _ => '>' :: trimAnglesGo f rest
          else '>' :: trimAnglesGo f rest
      | c :: rest => c :: trimAnglesGo f rest

/-- `return_trimmed_string`: collapse `>`-whitespace-`<` runs, then strip
all tabs and newlines (`/\t|\n/g`). -/
def return_trimmed_string (s : String) : String :=
  String.mk ((trimAnglesGo (s.toList.length + 1) s.toList).filter
    (fun c => c ≠ '\t' && c ≠ '\n'))

/-- The 8-entry character map of `return_escaped_string`. -/
def escapeChar (c : Char) : List Char :=
  if c = '&' then "&amp;".toList
  else if c = '<' then "&lt;".toList
  else if c = '>' then "&gt;".toList
  else if c = '"' then "&quot;".toList
  else if c = squote then "&#39;".toList
  else if c = btick then "&#x60;".toList
  else if c = '=' then "&#x3D;".toList
  else if c = '/' then "&#x2F;".toList
  else [c]

/-- `return_escaped_string`. -/
def return_escaped_string (s : String) : String :=
  String.mk ((s.toList.map escapeChar).flatten)

/-- One step of the flag reduce in `return_flagged_value`.  JS calls
`.replace` on the value, which raises a `TypeError` when the value is not
a string. -/
def flagStep (v : Value) (flag : Char) : Except JSErr Value :=
  if flag = '!' then
    match v with
    | .str s => .ok (.str (return_trimmed_string s))
    | _ => .error ⟨"TypeError", "value.replace is not a function"⟩
  else if flag = '#' then
    match v with
    | .str s => .ok (.str (return_escaped_string s))
    | _ => .error ⟨"TypeError", "value.replace is not a function"⟩
  else .ok v

/-- `return_flagged_value`: reduce over the flags in declared order. -/
def return_flagged_value (v : Value) (flags : List Char) : Except JSErr Value :=
  flags.foldlM flagStep v

/-- The `LogicalExpression` switch of the renderer (`&&`, `||`, otherwise
fall through to `undefined`). -/
def logicalOp (op : String) (l r : Value) : Value :=
  if op == "&&" then valueAnd l r
  else if op == "||" then valueOr l r
  else (.undef : Value)

/-- The `BinaryExpression` switch of the renderer, in source order
(`!= == <= >= < > + - * /`, default `''`). -/
def binaryOp (op : String) (l r : Value) : Value :=
  if op == "!=" then .bool (!jsEquals l r)
  else if op == "==" then .bool (jsEquals l r)
  else if op == "<=" then .bool (jsLessEq l r)
  else if op == ">=" then .bool (jsLessEq r l)
  else if op == "<" then .bool (jsLess l r)
  else if op == ">" then .bool (jsLess r l)
  else if op == "+" then jsAdd l r
  else if op == "-" then .num (numSub (toNumber l) (toNumber r))
  else if op == "*" then .num (numMul (toNumber l) (toNumber r))
  else if op == "/" then .num (numDiv (toNumber l) (toNumber r))
  else .str ""

/-- Numeric negation. -/
def numNeg : JSNum → JSNum
  | .nan => .nan
  | .fin q => .fin (qNeg q)

/-- The `UnaryExpression` switch (`!`, `-`; a parsed unary `+` has no case
and the function returns `undefined`). -/
def unaryOp (op : String) (v : Value) : Value :=
  if op == "!" then .bool (!truthy v)
  else if op == "-" then .num (numNeg (toNumber v))
  else (.undef : Value)

/-- The `catch` block of `Import`: a `NotFound` error (the loader's
missing-file signal) becomes the user-facing message built from the
unresolved path; every other error is rethrown unchanged. -/
def importCatch (import_path : String) (err : JSErr) : EvalM Value :=
  if err.name == "NotFound" then
    throwE ⟨"Error", "Imported file \"" ++ import_path ++ "\" could not be found."⟩
  else throwE err

/-- `render_nodes`: evaluate a node list strictly in order. -/
def renderNodesW (ev : Node → EvalM Value) : List Node → EvalM (List Value)
  | [] => pure []
  | n :: ns => do
      let v ← ev n
      let vs ← renderNodesW ev ns
      pure (v :: vs)

/-- The `with`-argument loop of `Import`: each value is evaluated against
the (fixed) outer context while the assignments accumulate into the new
context, later keys overwriting earlier ones. -/
def importArgsW (ev : Node → EvalM Value) :
    List (String × Node) → Ctx → EvalM Ctx
  | [], acc => pure acc
  | (k, vn) :: rest, acc => do
      let v ← ev vn
      importArgsW ev rest (ctxSet acc k v)

/-- The base context a `For` iteration copies before overlaying the loop
bindings.  The code's choice: `{ ...input_data }`, the ROOT data — not the
context at the loop site. -/
abbrev ForScope := Option Ctx → Ctx → Ctx

/-- See `ForScope`: the translated source behaviour. -/
def forScopeCode : ForScope := fun _ root => root

/-- Follows the spec's words — "a data context that is a shallow copy of
the outer context overlaid with the loop bindings" — for comparison with
`forScopeCode`.  This is the only point where the two renderers differ. -/
def forScopeSpec : ForScope := fun d root => d.getD root

/-- The per-pair loop of `For`: bind the declared identifiers (each only
when its name is truthy) over the scope base, render the body, accumulate
the output string. -/
def forLoopW (ev : Node → Option Ctx → EvalM Value) (base : Ctx)
    (n1 n2 : Option String) (body : Node) :
    List (Value × Value) → String → EvalM Value
  | [], acc => pure (.str acc)
  | (k, v) :: rest, acc => do
      let c1 :=
        match n1 with
        | some nm => if nm ≠ "" then ctxSet base nm k else base
        | none => base
      let c2 :=
        match n2 with
        | some nm => if nm ≠ "" then ctxSet c1 nm v else c1
        | none => c1
      let res ← ev body (some c2)
      forLoopW ev base n1 n2 body rest (acc ++ jsToString res)

/-- `render_node` (and with it every per-type handler of the renderer),
parameterised over the `For` scope base and fuelled on the recursion
depth.  `d = none` plays the role of the omitted `node_data` argument
(`node_data || input_data` selects the root). -/
def evalNodeF (fs : ForScope) (env : Env) : Nat → Node → Option Ctx → EvalM Value
  | 0, _, _ => throwE fuelErr
  | f + 1, node, d =>
      match node with
      | .BlockList ns => do
          let vs ← renderNodesW (fun n => evalNodeF fs env f n d) ns
          pure (.str (joinEmpty vs))
      | .Text s fl? =>
          match fl? with
          | some fl => liftE (return_flagged_value (.str s) fl)
          | none => pure (.str s)
      | .Tag valueNode fl? => do
          let v ← evalNodeF fs env f valueNode d
          match fl? with
          | some fl => liftE (return_flagged_value v fl)
          | none => pure v
      | .Import pathNode withArgs => do
          let pv ← evalNodeF fs env f pathNode d
          let import_path := jsToString pv
          let import_path_prefixed :=
            if is_path_absolute import_path then import_path
            else join_path env.import_directory import_path
          tryCatchE
            (do
              let import_context := d.getD env.input_data
              let overrideV := (ctxGet import_context import_path).getD .undef
              let imported_file ←
                if truthy overrideV then
                  match overrideV with
                  | .str s => pure s
                  | _ => throwE ⟨"TypeError", "input_template.slice is not a function"⟩
                else liftE (env.files import_path_prefixed)
              let import_data ← importArgsW
                (fun n => evalNodeF fs env f n (some import_context))
                withArgs import_context
              match parseTemplate f imported_file with
              | .error e => throwE e
              | .ok ast => evalNodeF fs env f ast (some import_data))
            (importCatch import_path)
      | .For ids iter body => do
          let iterator_value ← evalNodeF fs env f iter d
          match forPairs iterator_value with
          | some pairs =>
              forLoopW (fun n dd => evalNodeF fs env f n dd)
                (fs d env.input_data) (ids.get? 0) (ids.get? 1) body pairs ""
          | none => pure (.str "")
      | .If test consequent alternate => do
          let t ← evalNodeF fs env f test d
          if truthy t then evalNodeF fs env f consequent d
          else
            match alternate with
            | some alt => evalNodeF fs env f alt d
            | none => pure .undef
      | .Else v => evalNodeF fs env f v d
      | .ConditionalExpression test c a => do
          let t ← evalNodeF fs env f test d
          if truthy t then evalNodeF fs env f c d
          else evalNodeF fs env f a d
      | .LogicalExpression op l r => do
          let left ← evalNodeF fs env f l d
          let right ← evalNodeF fs env f r d
          pure (logicalOp op left right)
      | .BinaryExpression op l r => do
          let left ← evalNodeF fs env f l d
          let right ← evalNodeF fs env f r d
          pure (binaryOp op left right)
      | .UnaryExpression op v => do
          let val ← evalNodeF fs env f v d
          pure (unaryOp op val)
      | .MemberExpression objNode propNode => do
          let object ← evalNodeF fs env f objNode d
          if truthy object = false then pure .undef
          else pure (getMemberKey object (propertyKey propNode))
      | .MemberBracketExpression objNode propNode => do
          let object ← evalNodeF fs env f objNode d
          let property ← evalNodeF fs env f propNode d
          if truthy object = false then pure .undef
          else pure (getMemberKey object (jsToString property))
      | .CallExpression calleeNode args => do
          let callee ← evalNodeF fs env f calleeNode d
          let argument_list ← renderNodesW (fun n => evalNodeF fs env f n d) args
          if truthy callee = false then pure .undef
          else
            match callee with
            | .func name => do
                logCall name argument_list
                pure (env.funcs name argument_list)
            | _ => throwE ⟨"TypeError", "callee is not a function"⟩
      | .Identifier name => pure ((ctxGet (d.getD env.input_data) name).getD .undef)
      | .StringLiteral s => pure (.str s)
      | .NumericLiteral q => pure (.num (.fin q))
      | .BooleanLiteral b => pure (.bool b)
      | .NullLiteral => pure .null

/-- `render_node` with the source's `For` scope. -/
def evalNode (env : Env) (f : Nat) (node : Node) (d : Option Ctx) : EvalM Value :=
  evalNodeF forScopeCode env f node d

/-- `render(input_template, input_data, input_settings)`: parse, then
render the root block list against the root data (the call log is
internal; the result is the rendered value or the propagated error — no
partial output exists on the error path). -/
def renderTemplate (f : Nat) (tpl : String) (env : Env) : Except JSErr Value :=
  match parseTemplate f tpl with
  | .error e => .error e
  | .ok ast => (runE (evalNodeF forScopeCode env f ast (some env.input_data)) []).1

/-- The spec-variant renderer: identical except that a `For` iteration
copies the context current at the loop site (`forScopeSpec`). -/
def renderTemplateSpecFor (f : Nat) (tpl : String) (env : Env) : Except JSErr Value :=
  match parseTemplate f tpl with
  | .error e => .error e
  | .ok ast => (runE (evalNodeF forScopeSpec env f ast (some env.input_data)) []).1

/-- `render` at its `Promise<string>` type: the root node is a
`BlockList`, whose evaluation always yields a string (`jsToString` is the
identity there). -/
def render (f : Nat) (tpl : String) (env : Env) : Except JSErr String :=
  match renderTemplate f tpl env with
  | .error e => .error e
  | .ok v => .ok (jsToString v)

/-- The spec-variant of `render` (see `renderTemplateSpecFor`). -/
def renderSpecFor (f : Nat) (tpl : String) (env : Env) : Except JSErr String :=
  match renderTemplateSpecFor f tpl env with
  | .error e => .error e
  | .ok v => .ok (jsToString v)

/-! ## Run lemmas for the effect monad -/

/-- Running a bind: run the first computation, then the continuation on
the success path. -/
theorem runE_bind {α β : Type} (x : EvalM α) (k : α → EvalM β) (s : List CallEvent) :
    runE (x >>= k) s =
      match runE x s with
      | (.ok a, t) => runE (k a) t
      | (.error e, t) => (.error e, t) := rfl

/-- Running `pure`. -/
theorem runE_pure {α : Type} (a : α) (s : List CallEvent) :
    runE (pure (f := EvalM) a) s = (.ok a, s) := rfl

/-- Running `throwE`. -/
theorem runE_throwE {α : Type} (e : JSErr) (s : List CallEvent) :
    runE (throwE (α := α) e) s = (.error e, s) := rfl

/-- Running a lifted `Except`. -/
theorem runE_liftE {α : Type} (x : Except JSErr α) (s : List CallEvent) :
    runE (liftE x) s = (x, s) := rfl

/-- Running `logCall` appends the event. -/
theorem runE_logCall (n : String) (args : List Value) (s : List CallEvent) :
    runE (logCall n args) s = (.ok (), s ++ [(n, args)]) := rfl

/-! ## Concrete scenarios used by the claim theorems -/

/-- A file loader with no files: every path reports the `NotFound`
signal. -/
def noFiles : String → Except JSErr String :=
  fun _ => .error ⟨"NotFound", "No such file or directory"⟩

/-- Host functions that all return `null`. -/
def noFuncs : String → List Value → Value := fun _ _ => .null

/-- An environment with the given data, empty import directory, no files
and null-returning host functions. -/
def mkEnv (d : Ctx) : Env := ⟨d, "", noFiles, noFuncs⟩

/-- The expression of claim C1. -/
def exprC1 : String := "a || b && c"

/-- The C1 expression as a template tag. -/
def tplC1 : String := "\x7ba || b && c\x7d"

/-- Booleans making `a || (b && c)` and `(a || b) && c` differ. -/
def envC1 : Env := mkEnv [("a", .bool true), ("b", .bool false), ("c", .bool false)]

/-- The parse of `tplC1`. -/
def astC1 : Node :=
  .BlockList
    [.Tag
      (.LogicalExpression "&&"
        (.LogicalExpression "||" (.Identifier "a") (.Identifier "b"))
        (.Identifier "c"))
      none]

/-- A nested loop whose inner body reads the outer loop variable
(each block tag on its own line, as the greedy tag regexes require). -/
def tplC2 : String :=
  "\x7bfor a in \"x\"\x7d\n\x7bfor b in \"y\"\x7d\n\x7ba\x7d\x7bb\x7d\x7b/for\x7d\x7b/for\x7d"

/-- The parse of `tplC2`. -/
def astC2 : Node :=
  .BlockList
    [.For ["a"] (.StringLiteral "x")
      (.BlockList
        [.Text "\n" none,
         .For ["b"] (.StringLiteral "y")
          (.BlockList
            [.Text "\n" none,
             .Tag (.Identifier "a") none,
             .Tag (.Identifier "b") none])])]

/-- A loop binding `a`, followed by a sibling tag reading `a` — the
binding must not leak out of the loop. -/
def tplC2b : String := "\x7bfor a in \"z\"\x7d\nx\x7b/for\x7d\n\x7ba\x7d"

/-- The parse of `tplC2b`. -/
def astC2b : Node :=
  .BlockList
    [.For ["a"] (.StringLiteral "z") (.BlockList [.Text "\nx" none]),
     .Text "\n" none,
     .Tag (.Identifier "a") none]

/-- The outer data context of the no-leak scenario. -/
def envC2b : Env := mkEnv [("a", .str "Q")]

/-- A call of `f` with no arguments. -/
def tplC3 : String := "\x7bf()\x7d"

/-- The parse of `tplC3`. -/
def astC3 : Node := .BlockList [.Tag (.CallExpression (.Identifier "f") []) none]

/-- `f` bound to the truthy non-callable `5`. -/
def envC3num : Env := mkEnv [("f", .num (.fin ⟨5, 1⟩))]

/-- `f` bound to the falsy non-callable `null`. -/
def envC3null : Env := mkEnv [("f", .null)]

/-- An import with `with` arguments: a duplicate key (`x`) and an
argument (`y: x`) that reads the key the earlier arguments overwrite. -/
def tplC4 : String := "\x7bimport \"t\" with (x: a, x: \"B\", y: x)\x7d"

/-- The parse of `tplC4`. -/
def astC4 : Node :=
  .BlockList
    [.Import (.StringLiteral "t")
      [("x", .Identifier "a"), ("x", .StringLiteral "B"), ("y", .Identifier "x")]]

/-- The C4 environment: the context maps the unresolved path `t` to a
template source, the loader fails on every path (so success proves the
loader was bypassed), and `x` has an old value the `with` arguments
read and overwrite. -/
def envC4 : Env :=
  ⟨[("t", .str "\x7ba\x7d\x7bx\x7d\x7by\x7d"), ("a", .str "A"), ("x", .str "OLD")],
   "lib", noFiles, noFuncs⟩

/-- A bare import of `t`. -/
def tplC4b : String := "\x7bimport \"t\"\x7d"

/-- The parse of `tplC4b`. -/
def astC4b : Node := .BlockList [.Import (.StringLiteral "t") []]

/-- The C4 counterexample environment: the context maps `t` to the EMPTY
string (a falsy value), while the loader returns the template `X` for the
resolved path. -/
def envC4b : Env :=
  ⟨[("t", .str "")], "",
   fun p => if p == "t" then .ok "X" else .error ⟨"NotFound", "nf"⟩, noFuncs⟩

/-- A bare import of `p.html` (resolved against the directory `lib`). -/
def tplC5 : String := "\x7bimport \"p.html\"\x7d"

/-- The parse of `tplC5`. -/
def astC5 : Node := .BlockList [.Import (.StringLiteral "p.html") []]

/-- A loader signalling the not-found condition on every path. -/
def envC5nf : Env := ⟨[], "lib", fun _ => .error ⟨"NotFound", "No such file"⟩, noFuncs⟩

/-- A loader failing with a non-not-found error on every path. -/
def envC5pd : Env := ⟨[], "lib", fun _ => .error ⟨"PermissionDenied", "denied"⟩, noFuncs⟩

/-- The ternary and arithmetic precedence templates of C6. -/
def tplC6a : String := "\x7b2 + 2 == 4 ? \"Yes\" : \"No\"\x7d"

/-- See `tplC6a`. -/
def tplC6b : String := "\x7b1 + 2 * 3\x7d"

/-- A same-precedence chain, grouped left-to-right. -/
def tplC6c : String := "\x7b10 - 4 - 3\x7d"

/-- The parse of `tplC6a`. -/
def astC6a : Node :=
  .BlockList
    [.Tag
      (.ConditionalExpression
        (.BinaryExpression "=="
          (.BinaryExpression "+" (.NumericLiteral ⟨2, 1⟩) (.NumericLiteral ⟨2, 1⟩))
          (.NumericLiteral ⟨4, 1⟩))
        (.StringLiteral "Yes") (.StringLiteral "No"))
      none]

/-- The parse of `tplC6b`. -/
def astC6b : Node :=
  .BlockList
    [.Tag
      (.BinaryExpression "+" (.NumericLiteral ⟨1, 1⟩)
        (.BinaryExpression "*" (.NumericLiteral ⟨2, 1⟩) (.NumericLiteral ⟨3, 1⟩)))
      none]

/-- The parse of `tplC6c`. -/
def astC6c : Node :=
  .BlockList
    [.Tag
      (.BinaryExpression "-"
        (.BinaryExpression "-" (.NumericLiteral ⟨10, 1⟩) (.NumericLiteral ⟨4, 1⟩))
        (.NumericLiteral ⟨3, 1⟩))
      none]

/-- An environment whose context function `f` is observable in the call
log. -/
def envC7 : Env := ⟨[("f", .func "f")], "", noFiles, noFuncs⟩

/-- The spec's own For-over-number example, verbatim (single line). -/
def tplC8bad : String := "\x7bfor n, i in 3\x7d\x7bn\x7d-\x7bi\x7d;\x7b/for\x7d"

/-- The For-over-number example with the opening tag on its own line (the
`!` flag strips the newline the line break introduces), producing exactly
the output the spec's example claims. -/
def tplC8good : String := "\x7b!for n, i in 3\x7d\n\x7bn\x7d-\x7bi\x7d;\x7b/for\x7d"

/-- The parse of `tplC8good`. -/
def astC8 : Node :=
  .BlockList
    [.For ["n", "i"] (.NumericLiteral ⟨3, 1⟩)
      (.BlockList
        [.Text "\n" (some ['!']),
         .Tag (.Identifier "n") none,
         .Text "-" (some ['!']),
         .Tag (.Identifier "i") none,
         .Text ";" (some ['!'])])]

/-- The spec's unclosed-if example. -/
def tplC9if : String := "\x7bif a\x7dno close"

/-- An unclosed for block. -/
def tplC9for : String := "\x7bfor x in y\x7dno close"

/-- Dot member access on `a`. -/
def tplC10a : String := "\x7ba.length\x7d"

/-- The parse of `tplC10a`. -/
def astC10a : Node :=
  .BlockList [.Tag (.MemberExpression (.Identifier "a") (.Identifier "length")) none]

/-- `a` bound to the empty string (falsy). -/
def envC10a : Env := mkEnv [("a", .str "")]

/-- Bracket member access on `b`. -/
def tplC10b : String := "\x7bb[0]\x7d"

/-- The parse of `tplC10b`. -/
def astC10b : Node :=
  .BlockList
    [.Tag (.MemberBracketExpression (.Identifier "b") (.NumericLiteral ⟨0, 1⟩)) none]

/-- `b` bound to `0` (falsy). -/
def envC10b : Env := mkEnv [("b", .num (.fin ⟨0, 1⟩))]

/-! ## Claim theorems -/

/-- C1: the claim states that `&&` binds tighter than `||` (grammar
`OrExpr := AndExpr ('||' AndExpr)*`, `AndExpr := EqualityExpr ('&&'
EqualityExpr)*`), so `a || b && c` should parse with `||` at the root and
`b && c` as its right subtree.  The code has the token types transposed —
`OrExpression()` loops on `AND` tokens and `AndExpression()` on `OR`
tokens — so the parser returns a tree whose ROOT is the `&&` operation
with `a || b` as its LEFT subtree; with `a = true`, `b = false`,
`c = false` the tag `\x7ba || b && c\x7d` consequently renders `false`
where the claimed grammar gives `true`. -/
theorem c1_logical_precedence_swapped :
    parseExpressionString 50 exprC1 0 =
      .ok (.LogicalExpression "&&"
        (.LogicalExpression "||" (.Identifier "a") (.Identifier "b"))
        (.Identifier "c"))
    ∧ render 100 tplC1 envC1 = .ok "false" := by
  refine ⟨by rfl, ?_⟩
  have hp : parseTemplate 100 tplC1 = .ok astC1 := by rfl
  have he : (runE (evalNodeF forScopeCode envC1 100 astC1 (some envC1.input_data)) []).1
      = .ok (.str "false") := by rfl
  simp only [render, renderTemplate, hp, he, jsToString]

/-- C2 counterexample: the claim says a `For` body context is a shallow
copy of the outer (current) context, so the inner body of a nested loop
sees the outer loop variable `a`.  The code copies the ROOT `input_data`
instead: the nested template renders `\n\ny` (the inner `\x7ba\x7d` is
undefined), while the spec-faithful renderer (differing only in that one
copy) renders `\n\nxy`. -/
theorem c2_counterexample :
    render 200 tplC2 (mkEnv []) = .ok "\n\ny"
    ∧ renderSpecFor 200 tplC2 (mkEnv []) = .ok "\n\nxy"
    ∧ ("\n\ny" : String) ≠ "\n\nxy" := by
  have hp : parseTemplate 200 tplC2 = .ok astC2 := by rfl
  have he : (runE (evalNodeF forScopeCode (mkEnv []) 200 astC2 (some (mkEnv []).input_data)) []).1
      = .ok (.str "\n\ny") := by rfl
  have hs : (runE (evalNodeF forScopeSpec (mkEnv []) 200 astC2 (some (mkEnv []).input_data)) []).1
      = .ok (.str "\n\nxy") := by rfl
  refine ⟨?_, ?_, by decide⟩
  · simp only [render, renderTemplate, hp, he, jsToString]
  · simp only [renderSpecFor, renderTemplateSpecFor, hp, hs, jsToString]

/-- C2 as amended: each `For` iteration renders the body against a
shallow copy of the ROOT input data overlaid with the loop bindings —
bindings from an enclosing loop are not visible in the body (the nested
template renders `\n\ny`), and loop bindings never leak back into the
parent context (after the loop, `\x7ba\x7d` still sees the original
`Q`). -/
theorem c2_for_scope_amended :
    render 200 tplC2 (mkEnv []) = .ok "\n\ny"
    ∧ render 200 tplC2b envC2b = .ok "\nx\nQ" := by
  have hp : parseTemplate 200 tplC2 = .ok astC2 := by rfl
  have he : (runE (evalNodeF forScopeCode (mkEnv []) 200 astC2 (some (mkEnv []).input_data)) []).1
      = .ok (.str "\n\ny") := by rfl
  have hp2 : parseTemplate 200 tplC2b = .ok astC2b := by rfl
  have he2 : (runE (evalNodeF forScopeCode envC2b 200 astC2b (some envC2b.input_data)) []).1
      = .ok (.str "\nx\nQ") := by rfl
  exact ⟨by simp only [render, renderTemplate, hp, he, jsToString],
         by simp only [render, renderTemplate, hp2, he2, jsToString]⟩

/-- C3 counterexample: the claim says every non-callable callee
short-circuits to undefined (empty output) rather than raising.  With `f`
bound to the truthy non-callable `5`, `\x7bf()\x7d` raises a `TypeError`
(the code only short-circuits on a FALSY callee, then calls the value). -/
theorem c3_counterexample :
    render 100 tplC3 envC3num = .error ⟨"TypeError", "callee is not a function"⟩
    ∧ render 100 tplC3 envC3num ≠ .ok "" := by
  have hp : parseTemplate 100 tplC3 = .ok astC3 := by rfl
  have he : (runE (evalNodeF forScopeCode envC3num 100 astC3 (some envC3num.input_data)) []).1
      = .error ⟨"TypeError", "callee is not a function"⟩ := by rfl
  have h1 : render 100 tplC3 envC3num = .error ⟨"TypeError", "callee is not a function"⟩ := by
    simp only [render, renderTemplate, hp, he]
  exact ⟨h1, by rw [h1]; exact fun h => Except.noConfusion h⟩

/-- C3 as amended: after the callee and all arguments are evaluated, a
FALSY callee short-circuits the call to undefined; a truthy value is then
called, which for a host function invokes it on the evaluated arguments
(appending the call to the log) and for any other truthy value raises a
`TypeError`. -/
theorem c3_callee_dispatch (fs : ForScope) (env : Env) (f : Nat) (c : Node)
    (args : List Node) (d : Option Ctx) (s s1 s2 : List CallEvent)
    (cv : Value) (avs : List Value)
    (h1 : runE (evalNodeF fs env f c d) s = (.ok cv, s1))
    (h2 : runE (renderNodesW (fun n => evalNodeF fs env f n d) args) s1 = (.ok avs, s2)) :
    runE (evalNodeF fs env (f + 1) (.CallExpression c args) d) s =
      if truthy cv = false then (.ok .undef, s2)
      else
        match cv with
        | .func name => (.ok (env.funcs name avs), s2 ++ [(name, avs)])
        | _ => (.error ⟨"TypeError", "callee is not a function"⟩, s2) := by
  simp only [evalNodeF, runE_bind, h1, h2]
  cases ht : truthy cv
  · simp [runE_pure]
  · cases cv <;> simp_all [runE_bind, runE_pure, runE_logCall, runE_throwE]

/-- Witness for `c3_callee_dispatch`: `f` bound to the falsy `null`
yields undefined without an error or a logged call. -/
theorem c3_callee_dispatch_witness :
    runE (evalNodeF forScopeCode envC3null 2 (.CallExpression (.Identifier "f") []) none) []
      = (.ok .undef, []) :=
  c3_callee_dispatch forScopeCode envC3null 1 (.Identifier "f") [] none [] [] []
    .null [] (by rfl) (by rfl)

/-- C4 counterexample: the claim says a context entry keyed by the
unresolved path string is used verbatim as the template source, bypassing
the loader.  With the entry `t ↦ ""` (a falsy string) the `||` in the code
falls through to the loader, which supplies the template `X`: the render
is `X`, not the empty output the verbatim empty template would give. -/
theorem c4_counterexample :
    render 200 tplC4b envC4b = .ok "X"
    ∧ render 200 tplC4b envC4b ≠ .ok "" := by
  have hp : parseTemplate 200 tplC4b = .ok astC4b := by rfl
  have he : (runE (evalNodeF forScopeCode envC4b 200 astC4b (some envC4b.input_data)) []).1
      = .ok (.str "X") := by rfl
  have h1 : render 200 tplC4b envC4b = .ok "X" := by
    simp only [render, renderTemplate, hp, he, jsToString]
  refine ⟨h1, ?_⟩
  rw [h1]
  intro h
  exact absurd (Except.ok.inj h) (by decide)

/-- C4 as amended (with "entry" strengthened to "truthy entry"): a truthy
context entry keyed by the unresolved path (`t`) is used verbatim as the
template source with the loader bypassed (the loader here fails on every
path, yet the import succeeds); the imported template renders against the
current context shallow-merged with the with-arguments, where every
argument value is evaluated against the outer context — `y: x` sees the
OLD outer `x`, not the `B` that the earlier duplicate-key arguments
(later one winning) put into the merged context — giving `ABOLD`. -/
theorem c4_import_amended : render 300 tplC4 envC4 = .ok "ABOLD" := by
  have hp : parseTemplate 300 tplC4 = .ok astC4 := by rfl
  have he : (runE (evalNodeF forScopeCode envC4 300 astC4 (some envC4.input_data)) []).1
      = .ok (.str "ABOLD") := by rfl
  simp only [render, renderTemplate, hp, he, jsToString]

/-- C5: a loader failure named `NotFound` makes the render fail with
exactly `Imported file "p.html" could not be found.` (the unresolved path,
though the loader is called on the resolved one), while any other loader
failure propagates unchanged; no partial output is produced (the result is
the error alone).  The last two conjuncts state the catch step in general:
every error named `NotFound` is wrapped into that exact message and every
other error is rethrown as-is. -/
theorem c5_import_error_channel :
    render 200 tplC5 envC5nf
      = .error ⟨"Error", "Imported file \"p.html\" could not be found."⟩
    ∧ render 200 tplC5 envC5pd = .error ⟨"PermissionDenied", "denied"⟩
    ∧ (∀ (e : JSErr) (s : List CallEvent), e.name ≠ "NotFound" →
        runE (importCatch "p.html" e) s = (.error e, s))
    ∧ (∀ (e : JSErr) (s : List CallEvent), e.name = "NotFound" →
        runE (importCatch "p.html" e) s
          = (.error ⟨"Error", "Imported file \"p.html\" could not be found."⟩, s)) := by
  refine ⟨?_, ?_, ?_, ?_⟩
  · have hp : parseTemplate 200 tplC5 = .ok astC5 := by rfl
    have he : (runE (evalNodeF forScopeCode envC5nf 200 astC5 (some envC5nf.input_data)) []).1
        = .error ⟨"Error", "Imported file \"p.html\" could not be found."⟩ := by rfl
    simp only [render, renderTemplate, hp, he]
  · have hp : parseTemplate 200 tplC5 = .ok astC5 := by rfl
    have he : (runE (evalNodeF forScopeCode envC5pd 200 astC5 (some envC5pd.input_data)) []).1
        = .error ⟨"PermissionDenied", "denied"⟩ := by rfl
    simp only [render, renderTemplate, hp, he]
  · intro e s h
    simp [importCatch, runE_throwE, h]
  · intro e s h
    simp [importCatch, runE_throwE, h]

/-- Witness for `c5_import_error_channel`: an error named `Boom`
propagates unchanged through the import catch step. -/
theorem c5_witness :
    runE (importCatch "p.html" ⟨"Boom", "x"⟩) [] = (.error ⟨"Boom", "x"⟩, []) :=
  c5_import_error_channel.2.2.1 ⟨"Boom", "x"⟩ [] (by decide)

/-- C6: `\x7b2 + 2 == 4 ? "Yes" : "No"\x7d` renders `Yes` and
`\x7b1 + 2 * 3\x7d` renders `7` (not `9`) — multiplicative binds tighter
than additive, additive tighter than equality, the ternary loosest — and
the same-precedence chain `\x7b10 - 4 - 3\x7d` groups left-to-right,
rendering `3`. -/
theorem c6_operator_precedence :
    render 100 tplC6a (mkEnv []) = .ok "Yes"
    ∧ render 100 tplC6b (mkEnv []) = .ok "7"
    ∧ render 100 tplC6c (mkEnv []) = .ok "3" := by
  have hpa : parseTemplate 100 tplC6a = .ok astC6a := by rfl
  have hea : (runE (evalNodeF forScopeCode (mkEnv []) 100 astC6a (some (mkEnv []).input_data)) []).1
      = .ok (.str "Yes") := by rfl
  have hpb : parseTemplate 100 tplC6b = .ok astC6b := by rfl
  have heb : (runE (evalNodeF forScopeCode (mkEnv []) 100 astC6b (some (mkEnv []).input_data)) []).1
      = .ok (.str "7") := by rfl
  have hpc : parseTemplate 100 tplC6c = .ok astC6c := by rfl
  have hec : (runE (evalNodeF forScopeCode (mkEnv []) 100 astC6c (some (mkEnv []).input_data)) []).1
      = .ok (.str "3") := by rfl
  exact ⟨by simp only [render, renderTemplate, hpa, hea, jsToString],
         by simp only [render, renderTemplate, hpb, heb, jsToString],
         by simp only [render, renderTemplate, hpc, hec, jsToString]⟩

/-- C7: for every `LogicalExpression`, the renderer evaluates BOTH
operands unconditionally — the final call log `s2` includes the right
operand's effects even when the left value alone decides the result — and
returns the combination of the two already-evaluated values (the
`logicalOp` switch). -/
theorem c7_logical_no_short_circuit (fs : ForScope) (env : Env) (f : Nat)
    (op : String) (l r : Node) (d : Option Ctx) (s s1 s2 : List CallEvent)
    (lv rv : Value)
    (h1 : runE (evalNodeF fs env f l d) s = (.ok lv, s1))
    (h2 : runE (evalNodeF fs env f r d) s1 = (.ok rv, s2)) :
    runE (evalNodeF fs env (f + 1) (.LogicalExpression op l r) d) s
      = (.ok (logicalOp op lv rv), s2) := by
  simp only [evalNodeF, runE_bind, h1, h2, runE_pure]

/-- Witness for `c7_logical_no_short_circuit`: in `true || f()` the left
operand already decides the result (`true`), yet the call of `f` lands in
the log. -/
theorem c7_witness :
    runE (evalNodeF forScopeCode envC7 3
        (.LogicalExpression "||" (.BooleanLiteral true)
          (.CallExpression (.Identifier "f") []))
        (some [("f", .func "f")])) []
      = (.ok (.bool true), [("f", [])]) :=
  c7_logical_no_short_circuit forScopeCode envC7 2 "||" (.BooleanLiteral true)
    (.CallExpression (.Identifier "f") []) (some [("f", .func "f")])
    [] [] [("f", [])] (.bool true) .null (by rfl) (by rfl)

/-- C8: the For-over-number semantics is as claimed — the pairs are
`(1,0), (2,1), (3,2)` with the first identifier bound to the count-up
value and the second to the index — but the claim's own single-line
example fails to parse: the greedy `FOR` tag rule consumes up to the last
`\x7d` on the line, swallowing body and closing tag, so the code throws
`Missing \x7b/for\x7d closing tag (line 1)`.  With the opening tag on its
own line (its newline stripped by the `!` flag) the render is exactly the
claimed `1-0;2-1;3-2;`. -/
theorem c8_for_over_number :
    render 200 tplC8bad (mkEnv [])
      = .error (nanoErr "Missing \x7b/for\x7d closing tag (line 1)")
    ∧ render 200 tplC8good (mkEnv []) = .ok "1-0;2-1;3-2;" := by
  have hpb : parseTemplate 200 tplC8bad
      = .error (nanoErr "Missing \x7b/for\x7d closing tag (line 1)") := by rfl
  have hpg : parseTemplate 200 tplC8good = .ok astC8 := by rfl
  have heg : (runE (evalNodeF forScopeCode (mkEnv []) 200 astC8 (some (mkEnv []).input_data)) []).1
      = .ok (.str "1-0;2-1;3-2;") := by rfl
  exact ⟨by simp only [render, renderTemplate, hpb],
         by simp only [render, renderTemplate, hpg, heg, jsToString]⟩

/-- C9: whenever the token stream is exhausted before the closing tag of
an `If`/`For` block, the closing step raises the fatal
missing-closing-tag `NanoError` carrying the current line (first two
conjuncts, for any tokenizer state); in particular the claim's example
`\x7bif a\x7dno close` and its for-analogue fail with those errors rather
than returning a truncated AST (last two conjuncts). -/
theorem c9_unclosed_block :
    (∀ st : TokState, st.lookahead = none →
        closeIfBlock st = .error (nanoErr
          ("Missing \x7b/if\x7d closing tag (line " ++ toString st.line ++ ")")))
    ∧ (∀ st : TokState, st.lookahead = none →
        closeForBlock st = .error (nanoErr
          ("Missing \x7b/for\x7d closing tag (line " ++ toString st.line ++ ")")))
    ∧ parseTemplate 100 tplC9if
        = .error (nanoErr "Missing \x7b/if\x7d closing tag (line 1)")
    ∧ parseTemplate 100 tplC9for
        = .error (nanoErr "Missing \x7b/for\x7d closing tag (line 1)") := by
  refine ⟨?_, ?_, by rfl, by rfl⟩
  · intro st h
    simp [closeIfBlock, tAdvance, advanceTok, h]
  · intro st h
    simp [closeForBlock, tAdvance, advanceTok, h]

/-- Witness for `c9_unclosed_block`: the exhausted state at line 1. -/
theorem c9_witness :
    closeIfBlock ⟨[], 1, none, []⟩
      = .error (nanoErr "Missing \x7b/if\x7d closing tag (line 1)") :=
  c9_unclosed_block.1 ⟨[], 1, none, []⟩ rfl

/-- C10: for both member forms, a falsy object value — not only
null/undefined but any value with `truthy = false`, such as `0`, `""` or
`false` — makes the member expression evaluate to undefined without the
property access being performed (first two conjuncts, general); in
particular `\x7ba.length\x7d` with `a = ""` and `\x7bb[0]\x7d` with
`b = 0` render as empty output. -/
theorem c10_falsy_member_short_circuit :
    (∀ (fs : ForScope) (env : Env) (f : Nat) (obj prop : Node) (d : Option Ctx)
        (s s1 : List CallEvent) (ov : Value),
        runE (evalNodeF fs env f obj d) s = (.ok ov, s1) → truthy ov = false →
        runE (evalNodeF fs env (f + 1) (.MemberExpression obj prop) d) s = (.ok .undef, s1))
    ∧ (∀ (fs : ForScope) (env : Env) (f : Nat) (obj prop : Node) (d : Option Ctx)
        (s s1 s2 : List CallEvent) (ov pv : Value),
        runE (evalNodeF fs env f obj d) s = (.ok ov, s1) →
        runE (evalNodeF fs env f prop d) s1 = (.ok pv, s2) → truthy ov = false →
        runE (evalNodeF fs env (f + 1) (.MemberBracketExpression obj prop) d) s = (.ok .undef, s2))
    ∧ render 100 tplC10a envC10a = .ok ""
    ∧ render 100 tplC10b envC10b = .ok "" := by
  refine ⟨?_, ?_, ?_, ?_⟩
  · intro fs env f obj prop d s s1 ov h1 hf
    simp only [evalNodeF, runE_bind, h1, hf, runE_pure]
    simp [runE_pure]
  · intro fs env f obj prop d s s1 s2 ov pv h1 h2 hf
    simp only [evalNodeF, runE_bind, h1, h2, hf, runE_pure]
    simp [runE_pure]
  · have hp : parseTemplate 100 tplC10a = .ok astC10a := by rfl
    have he : (runE (evalNodeF forScopeCode envC10a 100 astC10a (some envC10a.input_data)) []).1
        = .ok (.str "") := by rfl
    simp only [render, renderTemplate, hp, he, jsToString]
  · have hp : parseTemplate 100 tplC10b = .ok astC10b := by rfl
    have he : (runE (evalNodeF forScopeCode envC10b 100 astC10b (some envC10b.input_data)) []).1
        = .ok (.str "") := by rfl
    simp only [render, renderTemplate, hp, he, jsToString]

/-- Witness for `c10_falsy_member_short_circuit`: the empty string as the
object of a `length` access. -/
theorem c10_witness :
    runE (evalNodeF forScopeCode (mkEnv []) 2
        (.MemberExpression (.StringLiteral "") (.Identifier "length")) none) []
      = (.ok .undef, []) :=
  c10_falsy_member_short_circuit.1 forScopeCode (mkEnv []) 1 (.StringLiteral "")
    (.Identifier "length") none [] [] (.str "") (by rfl) (by rfl)

end Nano
